import Mathlib

/-!
Verification development for the Asterisk AMI client of this repository
(src/telephony/asterisk.py).  The wire codec, action sending, call tracker
and event dispatcher are shallowly embedded below; the theorems check the
design document's statements against that embedding.
-/

namespace AMI

/-! ## Wire codec.  Python strings on the wire are modeled as List Char. -/

/-- Python wire strings, modeled as lists of characters. -/
abbrev Str := List Char

def CR : Char := '\r'

def LF : Char := '\n'

def crlf : Str := [CR, LF]

/-- Boolean prefix test on character lists. -/
def isPre : Str → Str → Bool
  | [], _ => true
  | _ :: _, [] => false
  | c :: cs, d :: ds => c == d && isPre cs ds

/-- First occurrence split: the part before the first occurrence of sep and
the part after it; models Python s.split(sep, 1) when sep occurs in s,
and the containment test failing when it does not. -/
def splitFirstAux (sep : Str) : Str → Str → Option (Str × Str)
  | [], _ => none
  | c :: cs, acc =>
    if isPre sep (c :: cs) then some (acc.reverse, (c :: cs).drop sep.length)
    else splitFirstAux sep cs (c :: acc)

def splitFirst (sep s : Str) : Option (Str × Str) := splitFirstAux sep s []

/-- Python substring containment (sub in s). -/
def containsSub (sub : Str) : Str → Bool
  | [] => sub.isEmpty
  | c :: rest => isPre sub (c :: rest) || containsSub sub rest

/-- Python s.split applied with separator CRLF (full split), as used by
_process_message on a stripped block. -/
def splitLinesAux : Str → Str → List Str
  | [], acc => [acc.reverse]
  | [c], acc => [(c :: acc).reverse]
  | c1 :: c2 :: rest, acc =>
    if c1 = CR ∧ c2 = LF then acc.reverse :: splitLinesAux rest []
    else splitLinesAux (c2 :: rest) (c1 :: acc)

def splitLines (s : Str) : List Str := splitLinesAux s []

/-- The characters Python str.strip removes. -/
def pyIsSpace (c : Char) : Bool :=
  c == ' ' || c == '\t' || c == '\n' || c == '\r' || c == '\x0b' || c == '\x0c'

/-- Python str.strip(). -/
def pyStrip (s : Str) : Str :=
  ((s.dropWhile pyIsSpace).reverse.dropWhile pyIsSpace).reverse

/-- Python dict assignment d[k] = v on an insertion-ordered string mapping:
an existing key keeps its position, a new key is appended. -/
def dictSet : List (Str × Str) → Str → Str → List (Str × Str)
  | [], k, v => [(k, v)]
  | (k1, v1) :: rest, k, v =>
    if k1 == k then (k1, v) :: rest else (k1, v1) :: dictSet rest k v

/-- One Key-colon-space-Value line, as formatted by _send_action. -/
def lineOf (kv : Str × Str) : Str := kv.1 ++ ':' :: ' ' :: kv.2

/-- Wire encoding from _send_action: one Key-Value line terminated by CRLF
per field, then a final CRLF (so the block ends with a blank line). -/
def encodeAction (fields : List (Str × Str)) : Str :=
  (fields.map (fun kv => lineOf kv ++ crlf)).flatten ++ crlf

/-- The line loop of _process_message: every line containing a colon-space
separator is split at its first occurrence and stored in the dict. -/
def parseLines : List Str → List (Str × Str) → List (Str × Str)
  | [], d => d
  | line :: rest, d =>
    match splitFirst [':', ' '] line with
    | some (k, v) => parseLines rest (dictSet d k v)
    | none => parseLines rest d

/-- _process_message field parsing: strip the block, split it on CRLF,
parse the lines into a dict. -/
def processMessage (message : Str) : List (Str × Str) :=
  parseLines (splitLines (pyStrip message)) []

/-- The event listener extracts the first complete block (terminated by a
blank line, i.e. split on the first double CRLF) and _process_message
parses it; none when no complete block is buffered. -/
def decodeWire (buffer : Str) : Option (List (Str × Str)) :=
  match splitFirst (crlf ++ crlf) buffer with
  | some (message, _) => some (processMessage message)
  | none => none

/-- Printable ASCII. -/
def printableA (c : Char) : Bool := 0x20 ≤ c.toNat && c.toNat ≤ 0x7e

/-- Every key and value character is printable ASCII (in particular neither
CR nor LF occurs). -/
def fieldsPrintable (fields : List (Str × Str)) : Bool :=
  fields.all (fun kv => kv.1.all printableA && kv.2.all printableA)

/-- The lines of a block joined by CRLF (the block body without the
final terminator). -/
def joinCRLF : List Str → Str
  | [] => []
  | [l] => l
  | l :: ls => l ++ crlf ++ joinCRLF ls

/-- The first key does not start with a stripped character (an empty first
key is fine: the line then starts with the colon). -/
def headNotSpace : Str → Bool
  | [] => true
  | c :: _ => !pyIsSpace c

/-- The last value is non-empty and does not end with a stripped
character. -/
def lastValOk : List (Str × Str) → Bool
  | [] => false
  | p :: rest =>
    match (rest.getLastD p).2.reverse with
    | [] => false
    | c :: _ => !pyIsSpace c

/-! ## Messages and the call tracker.  Decoded AMI dicts are modeled as
insertion-ordered association lists of Lean strings. -/

/-- A decoded AMI message (event or response): a field dict. -/
abbrev Msg := List (String × String)

/-- Python d.get(k, dflt). -/
def msgGet (m : Msg) (k dflt : String) : String :=
  match m.find? (fun p => p.1 == k) with
  | some p => p.2
  | none => dflt

/-- One entry of active_calls, as created by originate_call; keys that the
handlers add later are modeled as options that start out none. -/
structure CallInfo where
  phone_number : String
  channel : String
  start_time : Nat
  status : String
  unique_id : Option String
  answer_time : Option Nat := none
  bridge_time : Option Nat := none
  end_time : Option Nat := none
  hangup_cause : Option String := none
deriving Repr, DecidableEq

/-- The active_calls table: call_id keyed, insertion ordered. -/
abbrev Calls := List (String × CallInfo)

/-- Python dict lookup active_calls[cid] (first entry with that key). -/
def callsGet (calls : Calls) (cid : String) : Option CallInfo :=
  (calls.find? (fun p => p.1 == cid)).map (fun p => p.2)

/-- Python dict assignment active_calls[cid] = info. -/
def callsSet : Calls → String → CallInfo → Calls
  | [], cid, info => [(cid, info)]
  | (c1, i1) :: rest, cid, info =>
    if c1 == cid then (c1, info) :: rest else (c1, i1) :: callsSet rest cid info

/-- _handle_new_channel: the loop updates the first record whose channel
matches (break), setting unique_id and status ringing. -/
def newChannelUpdate (channel uid : String) : Calls → Calls
  | [] => []
  | (cid, info) :: rest =>
    if info.channel == channel then
      (cid, { info with unique_id := some uid, status := "ringing" }) :: rest
    else (cid, info) :: newChannelUpdate channel uid rest

/-- _handle_hangup: the first matching record gets status ended, end_time,
and the hangup cause (break after the first match). -/
def hangupUpdate (channel cause : String) (now : Nat) : Calls → Calls
  | [] => []
  | (cid, info) :: rest =>
    if info.channel == channel then
      (cid, { info with status := "ended", end_time := some now,
                        hangup_cause := some cause }) :: rest
    else (cid, info) :: hangupUpdate channel cause now rest

/-- Body of the matched branch of _handle_dial_event: Begin sets status
dialing, Answer sets status answered with an answer time, anything else
leaves the record as it is. -/
def dialApply (subevent : String) (now : Nat) (info : CallInfo) : CallInfo :=
  if subevent == "Begin" then { info with status := "dialing" }
  else if subevent == "Answer" then
    { info with status := "answered", answer_time := some now }
  else info

/-- _handle_dial_event: the first matching record is updated according to
the SubEvent, then break. -/
def dialUpdate (channel subevent : String) (now : Nat) : Calls → Calls
  | [] => []
  | (cid, info) :: rest =>
    if info.channel == channel then
      (cid, dialApply subevent now info) :: rest
    else (cid, info) :: dialUpdate channel subevent now rest

/-- _handle_bridge_event: the first record whose channel is Channel1 or
Channel2 gets status connected and a bridge time, then break. -/
def bridgeUpdate (ch1 ch2 : String) (now : Nat) : Calls → Calls
  | [] => []
  | (cid, info) :: rest =>
    if info.channel == ch1 || info.channel == ch2 then
      (cid, { info with status := "connected", bridge_time := some now }) :: rest
    else (cid, info) :: bridgeUpdate ch1 ch2 now rest

/-- The call-tracking part of _handle_event: dispatch on the Event field. -/
def trackerUpdate (ev : Msg) (now : Nat) (calls : Calls) : Calls :=
  let t := msgGet ev "Event" ""
  if t == "Newchannel" then
    newChannelUpdate (msgGet ev "Channel" "") (msgGet ev "Uniqueid" "") calls
  else if t == "Hangup" then
    hangupUpdate (msgGet ev "Channel" "") (msgGet ev "Cause" "") now calls
  else if t == "Dial" then
    dialUpdate (msgGet ev "Channel" "") (msgGet ev "SubEvent" "") now calls
  else if t == "Bridge" then
    bridgeUpdate (msgGet ev "Channel1" "") (msgGet ev "Channel2" "") now calls
  else calls

/-! ## Event callbacks and the dispatcher. -/

/-- A registered callback: it can read the call table and the event, and
either return or raise (modeled by Except). -/
abbrev Callback := Calls → Msg → Except String Unit

/-- event_callbacks: event type keyed, insertion ordered. -/
abbrev Registry := List (String × List Callback)

/-- Lookup of a callback list, none when the event type was never registered. -/
def registryGet (reg : Registry) (et : String) : Option (List Callback) :=
  (reg.find? (fun p => p.1 == et)).map (fun p => p.2)

/-- register_event_callback: create the empty list on a fresh event type,
then append the callback at the end. -/
def registerEventCallback : Registry → String → Callback → Registry
  | [], et, cb => [(et, [cb])]
  | (k, cbs) :: rest, et, cb =>
    if k == et then (k, cbs ++ [cb]) :: rest
    else (k, cbs) :: registerEventCallback rest et cb

/-- The callback loop of _handle_event: each callback is invoked inside its
own try block, so an exception is recorded and the loop continues. -/
def runCallbacks (calls : Calls) (ev : Msg) : List Callback → List (Except String Unit)
  | [] => []
  | cb :: rest =>
    (match cb calls ev with
     | Except.ok u => Except.ok u
     | Except.error e => Except.error e) :: runCallbacks calls ev rest

/-- _handle_event: first the tracker update, then the callbacks registered
for the Event field value, each observing the updated table. -/
def handleEvent (reg : Registry) (ev : Msg) (now : Nat) (calls : Calls) :
    Calls × List (Except String Unit) :=
  let post := trackerUpdate ev now calls
  let results :=
    match registryGet reg (msgGet ev "Event" "") with
    | some cbs => runCallbacks post ev cbs
    | none => []
  (post, results)

/-! ## Client state and the facade operations. -/

/-- The mutable state of an AsteriskAMIManager: connection flags, the action
counter, the shared response queue filled by the event listener, and the
call table.  Credentials are the constructor arguments. -/
structure AMIState where
  username : String
  password : String
  connected : Bool
  authenticated : Bool
  action_id : Nat
  response_queue : List Msg
  active_calls : Calls
deriving Repr, DecidableEq

/-- State after construction. -/
def initState (username password : String) : AMIState :=
  { username := username, password := password, connected := false,
    authenticated := false, action_id := 1, response_queue := [],
    active_calls := [] }

/-- Python dict assignment action[k] = v (an existing key keeps its place). -/
def setField : Msg → String → String → Msg
  | [], k, v => [(k, v)]
  | (k1, v1) :: rest, k, v =>
    if k1 == k then (k1, v) :: rest else (k1, v1) :: setField rest k v

/-- One action written to the wire, instrumented with the connection flags
the client held at the moment of the write. -/
structure Emit where
  action : Msg
  connAtSend : Bool
  authAtSend : Bool
deriving Repr, DecidableEq

/-- _send_action: requires connected only; increments action_id, stamps it
into the action, writes the encoded action, then pops one message from the
shared response queue and returns it only when its ActionID matches the
stamped one (an empty queue models the timeout, returning none). -/
def sendAction (st : AMIState) (act : Msg) : AMIState × Option Msg × List Emit :=
  if st.connected then
    let st1 : AMIState := { st with action_id := st.action_id + 1 }
    let stamped := setField act "ActionID" (toString st1.action_id)
    let emits := [⟨stamped, st1.connected, st1.authenticated⟩]
    match st1.response_queue with
    | [] => (st1, none, emits)
    | m :: rest =>
      let st2 : AMIState := { st1 with response_queue := rest }
      if msgGet m "ActionID" "" == toString st1.action_id then (st2, some m, emits)
      else (st2, none, emits)
  else (st, none, [])

/-- Result dict of originate_call. -/
structure CallResult where
  success : Bool
  call_id : Option String := none
  message : Option String := none
  error : Option String := none
deriving Repr, DecidableEq

/-- originate_call: refuses when not authenticated; otherwise builds the
call id from the clock and the current action counter, sends the Originate
action, and on a Success response appends a new call record with status
dialing and returns the call id. -/
def originateCall (st : AMIState) (phone chtech ctx ext : String)
    (priority : Nat) (callerID : Option String) (now : Nat) :
    AMIState × CallResult × List Emit :=
  if st.authenticated then
    let call_id := "call_" ++ toString now ++ "_" ++ toString st.action_id
    let base : Msg :=
      [("Action", "Originate"), ("Channel", chtech ++ "/" ++ phone),
       ("Context", ctx), ("Exten", ext), ("Priority", toString priority),
       ("ActionID", toString st.action_id),
       ("Variable", "CALL_ID=" ++ call_id), ("Async", "true")]
    let act := match callerID with
      | some cid => base ++ [("CallerID", cid)]
      | none => base
    let (st1, resp, em) := sendAction st act
    match resp with
    | some r =>
      if msgGet r "Response" "" == "Success" then
        let info : CallInfo :=
          { phone_number := phone, channel := chtech ++ "/" ++ phone,
            start_time := now, status := "dialing", unique_id := none }
        ({ st1 with active_calls := callsSet st1.active_calls call_id info },
         { success := true, call_id := some call_id,
           message := some "Call originated successfully" }, em)
      else (st1, { success := false,
                   error := some (msgGet r "Message" "Unknown error") }, em)
    | none => (st1, { success := false, error := some "No response" }, em)
  else (st, { success := false, error := some "Not authenticated" }, [])

/-- hangup_call: looks the record up, requires a non-empty channel, sends a
Hangup action, and on a Success response itself sets the record's status to
hung_up and records end_time. -/
def hangupCall (st : AMIState) (cid : String) (now : Nat) :
    AMIState × Bool × List Emit :=
  match callsGet st.active_calls cid with
  | none => (st, false, [])
  | some info =>
    if info.channel == "" then (st, false, [])
    else
      let act : Msg :=
        [("Action", "Hangup"), ("Channel", info.channel),
         ("ActionID", toString st.action_id)]
      let (st1, resp, em) := sendAction st act
      match resp with
      | some r =>
        if msgGet r "Response" "" == "Success" then
          let st2 :=
            match callsGet st1.active_calls cid with
            | some info2 =>
              let info3 := { info2 with status := "hung_up", end_time := some now }
              { st1 with active_calls := callsSet st1.active_calls cid info3 }
            | none => st1
          (st2, true, em)
        else (st1, false, em)
      | none => (st1, false, em)

/-- list_active_calls: sends a Status action (no authentication check) and
returns the current table values. -/
def listActiveCalls (st : AMIState) : AMIState × List CallInfo × List Emit :=
  let act : Msg := [("Action", "Status"), ("ActionID", toString st.action_id)]
  let (st1, _, em) := sendAction st act
  (st1, st1.active_calls.map (fun p => p.2), em)

/-- login: requires connected; sends the Login action and becomes
authenticated on a Success response. -/
def login (st : AMIState) : AMIState × Bool × List Emit :=
  if st.connected then
    let act : Msg :=
      [("Action", "Login"), ("Username", st.username),
       ("Secret", st.password), ("ActionID", toString st.action_id)]
    let (st1, resp, em) := sendAction st act
    match resp with
    | some r =>
      if msgGet r "Response" "" == "Success" then
        ({ st1 with authenticated := true }, true, em)
      else (st1, false, em)
    | none => (st1, false, em)
  else (st, false, [])

/-- connect: the socket either opens (ok) and the client becomes connected,
or the attempt fails and the state is unchanged. -/
def connectClient (st : AMIState) (ok : Bool) : AMIState × Bool :=
  if ok then ({ st with connected := true }, true) else (st, false)

/-- disconnect: a best-effort Logoff (only when authenticated), then both
flags drop. -/
def disconnectClient (st : AMIState) : AMIState × List Emit :=
  let (st1, em) :=
    if st.authenticated then
      let act : Msg := [("Action", "Logoff"), ("ActionID", toString st.action_id)]
      let (s, _, e) := sendAction st act
      (s, e)
    else (st, [])
  ({ st1 with connected := false, authenticated := false }, em)

/-- The event listener enqueues a decoded Response message. -/
def enqueueResponse (st : AMIState) (m : Msg) : AMIState :=
  { st with response_queue := st.response_queue ++ [m] }

/-- The event listener delivers a decoded Event message to the tracker. -/
def deliverEvent (st : AMIState) (ev : Msg) (now : Nat) : AMIState :=
  { st with active_calls := trackerUpdate ev now st.active_calls }

/-- One client-visible step: a facade call or a listener delivery. -/
inductive Op where
  | connect (ok : Bool)
  | login
  | originate (phone chtech ctx ext : String) (priority : Nat)
      (callerID : Option String) (now : Nat)
  | hangup (cid : String) (now : Nat)
  | listCalls
  | disconnect
  | enqueue (m : Msg)
  | deliver (ev : Msg) (now : Nat)

/-- Effect of one step: the next state and the actions written to the wire. -/
def step (st : AMIState) : Op → AMIState × List Emit
  | Op.connect ok => ((connectClient st ok).1, [])
  | Op.login => let (s, _, e) := login st; (s, e)
  | Op.originate p c cx ex pr cid now =>
    let (s, _, e) := originateCall st p c cx ex pr cid now; (s, e)
  | Op.hangup cid now => let (s, _, e) := hangupCall st cid now; (s, e)
  | Op.listCalls => let (s, _, e) := listActiveCalls st; (s, e)
  | Op.disconnect => disconnectClient st
  | Op.enqueue m => (enqueueResponse st m, [])
  | Op.deliver ev now => (deliverEvent st ev now, [])

/-- Run a sequence of steps, collecting every action written to the wire. -/
def run (st : AMIState) : List Op → AMIState × List Emit
  | [] => (st, [])
  | op :: ops =>
    let (s1, e1) := step st op
    let (s2, e2) := run s1 ops
    (s2, e1 ++ e2)

/-- The channel fields an event is matched on: Channel1 and Channel2 for a
Bridge event, the Channel field for every other event. -/
def relevantChannels (ev : Msg) : List String :=
  if msgGet ev "Event" "" == "Bridge" then
    [msgGet ev "Channel1" "", msgGet ev "Channel2" ""]
  else [msgGet ev "Channel" ""]

/-- Callback list registered for an event type (empty when never registered). -/
def registryGetD (reg : Registry) (et : String) : List Callback :=
  (registryGet reg et).getD []

/-- A sample tracked call, as originate_call creates it. -/
def sampleCall : CallInfo :=
  { phone_number := "1000", channel := "SIP/1000", start_time := 10,
    status := "dialing", unique_id := none }

/-- The sample call after the Hangup event for its channel was processed. -/
def endedCall : CallInfo :=
  { sampleCall with status := "ended", end_time := some 20,
                    hangup_cause := some "16" }

/-- A connected, authenticated client with one queued Success response for
the next action (which will be stamped ActionID 2). -/
def authState : AMIState :=
  { username := "admin", password := "secret", connected := true,
    authenticated := true, action_id := 1,
    response_queue := [[("Response", "Success"), ("ActionID", "2")]],
    active_calls := [] }

/-- The authenticated client while it tracks the sample call. -/
def hangupState : AMIState :=
  { authState with active_calls := [("call_10_1", sampleCall)] }

/-- A connected client whose queue front is another caller's response:
the next send stamps ActionID 2, but the queued response carries 99. -/
def c1State : AMIState :=
  { authState with
      response_queue := [[("Response", "Success"), ("ActionID", "99")]] }

/-! ## Lemmas about the first-match update loops of the call tracker. -/

lemma newChannelUpdate_nomatch (ch uid : String) (calls : Calls)
    (h : ∀ p ∈ calls, p.2.channel ≠ ch) :
    newChannelUpdate ch uid calls = calls := by
  induction calls with
  | nil => rfl
  | cons p rest ih =>
    obtain ⟨cid, info⟩ := p
    rw [List.forall_mem_cons] at h
    have h1 : (info.channel == ch) = false := by simpa using h.1
    simp only [newChannelUpdate, h1, Bool.false_eq_true, if_false]
    rw [ih h.2]

lemma hangupUpdate_nomatch (ch cause : String) (now : Nat) (calls : Calls)
    (h : ∀ p ∈ calls, p.2.channel ≠ ch) :
    hangupUpdate ch cause now calls = calls := by
  induction calls with
  | nil => rfl
  | cons p rest ih =>
    obtain ⟨cid, info⟩ := p
    rw [List.forall_mem_cons] at h
    have h1 : (info.channel == ch) = false := by simpa using h.1
    simp only [hangupUpdate, h1, Bool.false_eq_true, if_false]
    rw [ih h.2]

lemma dialUpdate_nomatch (ch sub : String) (now : Nat) (calls : Calls)
    (h : ∀ p ∈ calls, p.2.channel ≠ ch) :
    dialUpdate ch sub now calls = calls := by
  induction calls with
  | nil => rfl
  | cons p rest ih =>
    obtain ⟨cid, info⟩ := p
    rw [List.forall_mem_cons] at h
    have h1 : (info.channel == ch) = false := by simpa using h.1
    simp only [dialUpdate, h1, Bool.false_eq_true, if_false]
    rw [ih h.2]

lemma bridgeUpdate_nomatch (ch1 ch2 : String) (now : Nat) (calls : Calls)
    (h : ∀ p ∈ calls, p.2.channel ≠ ch1 ∧ p.2.channel ≠ ch2) :
    bridgeUpdate ch1 ch2 now calls = calls := by
  induction calls with
  | nil => rfl
  | cons p rest ih =>
    obtain ⟨cid, info⟩ := p
    rw [List.forall_mem_cons] at h
    have h1 : (info.channel == ch1 || info.channel == ch2) = false := by
      simp [h.1.1, h.1.2]
    simp only [bridgeUpdate, h1, Bool.false_eq_true, if_false]
    rw [ih h.2]

lemma newChannelUpdate_first (ch uid : String) (pre : Calls) (cid : String)
    (info : CallInfo) (post : Calls)
    (hpre : ∀ p ∈ pre, p.2.channel ≠ ch) (hm : info.channel = ch) :
    newChannelUpdate ch uid (pre ++ (cid, info) :: post) =
      pre ++ (cid, { info with unique_id := some uid, status := "ringing" }) :: post := by
  induction pre with
  | nil => simp [newChannelUpdate, hm]
  | cons p rest ih =>
    obtain ⟨c1, i1⟩ := p
    rw [List.forall_mem_cons] at hpre
    have h1 : (i1.channel == ch) = false := by simpa using hpre.1
    simp only [List.cons_append, List.append_eq, newChannelUpdate, h1, Bool.false_eq_true, if_false]
    rw [ih hpre.2]

lemma hangupUpdate_first (ch cause : String) (now : Nat) (pre : Calls)
    (cid : String) (info : CallInfo) (post : Calls)
    (hpre : ∀ p ∈ pre, p.2.channel ≠ ch) (hm : info.channel = ch) :
    hangupUpdate ch cause now (pre ++ (cid, info) :: post) =
      pre ++ (cid, { info with status := "ended", end_time := some now,
                               hangup_cause := some cause }) :: post := by
  induction pre with
  | nil => simp [hangupUpdate, hm]
  | cons p rest ih =>
    obtain ⟨c1, i1⟩ := p
    rw [List.forall_mem_cons] at hpre
    have h1 : (i1.channel == ch) = false := by simpa using hpre.1
    simp only [List.cons_append, List.append_eq, hangupUpdate, h1, Bool.false_eq_true, if_false]
    rw [ih hpre.2]

lemma dialUpdate_first (ch sub : String) (now : Nat) (pre : Calls)
    (cid : String) (info : CallInfo) (post : Calls)
    (hpre : ∀ p ∈ pre, p.2.channel ≠ ch) (hm : info.channel = ch) :
    dialUpdate ch sub now (pre ++ (cid, info) :: post) =
      pre ++ (cid, dialApply sub now info) :: post := by
  induction pre with
  | nil => simp [dialUpdate, hm]
  | cons p rest ih =>
    obtain ⟨c1, i1⟩ := p
    rw [List.forall_mem_cons] at hpre
    have h1 : (i1.channel == ch) = false := by simpa using hpre.1
    simp only [List.cons_append, List.append_eq, dialUpdate, h1, Bool.false_eq_true, if_false]
    rw [ih hpre.2]

lemma bridgeUpdate_first (ch1 ch2 : String) (now : Nat) (pre : Calls)
    (cid : String) (info : CallInfo) (post : Calls)
    (hpre : ∀ p ∈ pre, p.2.channel ≠ ch1 ∧ p.2.channel ≠ ch2)
    (hm : info.channel = ch1 ∨ info.channel = ch2) :
    bridgeUpdate ch1 ch2 now (pre ++ (cid, info) :: post) =
      pre ++ (cid, { info with status := "connected",
                               bridge_time := some now }) :: post := by
  induction pre with
  | nil =>
    have h1 : (info.channel == ch1 || info.channel == ch2) = true := by
      rcases hm with hm | hm <;> simp [hm]
    simp [bridgeUpdate, h1]
  | cons p rest ih =>
    obtain ⟨c1, i1⟩ := p
    rw [List.forall_mem_cons] at hpre
    have h1 : (i1.channel == ch1 || i1.channel == ch2) = false := by
      simp [hpre.1.1, hpre.1.2]
    simp only [List.cons_append, List.append_eq, bridgeUpdate, h1, Bool.false_eq_true, if_false]
    rw [ih hpre.2]

lemma runCallbacks_eq_map (calls : Calls) (ev : Msg) (cbs : List Callback) :
    runCallbacks calls ev cbs = cbs.map (fun cb => cb calls ev) := by
  induction cbs with
  | nil => rfl
  | cons cb rest ih =>
    simp only [runCallbacks, List.map_cons, ih]
    congr 1
    cases cb calls ev <;> rfl

lemma registryGetD_register (reg : Registry) (et : String) (cb : Callback) :
    registryGetD (registerEventCallback reg et cb) et =
      registryGetD reg et ++ [cb] := by
  induction reg with
  | nil => simp [registerEventCallback, registryGetD, registryGet]
  | cons p rest ih =>
    obtain ⟨k, cbs⟩ := p
    by_cases hk : k = et
    · subst hk
      simp [registerEventCallback, registryGetD, registryGet]
    · have hk2 : (k == et) = false := beq_eq_false_iff_ne.mpr hk
      simp only [registerEventCallback, hk2, Bool.false_eq_true, if_false,
        registryGetD, registryGet, List.find?] at ih ⊢
      exact ih

/-! ## Claims C8, C9, C10. -/

/-- C8: every processed event whose Channel field (Channel1/Channel2 for a
Bridge event) matches no tracked record's channel leaves the call table
completely unchanged: no record is created, deleted or mutated. -/
theorem c8_unmatched_event_leaves_table (ev : Msg) (now : Nat) (calls : Calls)
    (h : ∀ p ∈ calls, p.2.channel ∉ relevantChannels ev) :
    trackerUpdate ev now calls = calls := by
  have hch : ∀ p ∈ calls, msgGet ev "Event" "" ≠ "Bridge" →
      p.2.channel ≠ msgGet ev "Channel" "" := by
    intro p hp hnb
    have hb : (msgGet ev "Event" "" == "Bridge") = false :=
      beq_eq_false_iff_ne.mpr hnb
    have hm := h p hp
    simp [relevantChannels, hb] at hm
    exact hm
  simp only [trackerUpdate]
  split
  next hN =>
    have hN2 : msgGet ev "Event" "" = "Newchannel" := by simpa using hN
    exact newChannelUpdate_nomatch _ _ _
      (fun p hp => hch p hp (by simp [hN2]))
  next hN =>
    split
    next hH =>
      have hH2 : msgGet ev "Event" "" = "Hangup" := by simpa using hH
      exact hangupUpdate_nomatch _ _ _ _
        (fun p hp => hch p hp (by simp [hH2]))
    next hH =>
      split
      next hD =>
        have hD2 : msgGet ev "Event" "" = "Dial" := by simpa using hD
        exact dialUpdate_nomatch _ _ _ _
          (fun p hp => hch p hp (by simp [hD2]))
      next hD =>
        split
        next hB =>
          have hB2 : msgGet ev "Event" "" = "Bridge" := by simpa using hB
          refine bridgeUpdate_nomatch _ _ _ _ ?_
          intro p hp
          have hm := h p hp
          rw [relevantChannels, hB2] at hm
          simpa using hm
        next hB => rfl

/-- Witness for C8: a Newchannel event for an unknown channel leaves a
concrete one-record table untouched. -/
theorem c8_witness :
    trackerUpdate
      [("Event", "Newchannel"), ("Channel", "SIP/9999"), ("Uniqueid", "77")]
      30 [("call_10_1", sampleCall)] = [("call_10_1", sampleCall)] :=
  c8_unmatched_event_leaves_table _ 30 _ (by decide)

/-- C9: _handle_event first applies the call-tracker update and only then
invokes the callbacks registered for the Event field value (each callback
observes the updated table); the result list covers every registered
callback in registration order even when earlier callbacks raise, because
each invocation is wrapped in its own exception handler; and
register_event_callback appends, so insertion order is call order. -/
theorem c9_dispatch_order_and_isolation (reg : Registry) (ev : Msg)
    (now : Nat) (calls : Calls) (et : String) (cb : Callback) :
    (handleEvent reg ev now calls).1 = trackerUpdate ev now calls ∧
    (handleEvent reg ev now calls).2 =
      (registryGetD reg (msgGet ev "Event" "")).map
        (fun c => c (trackerUpdate ev now calls) ev) ∧
    registryGetD (registerEventCallback reg et cb) et =
      registryGetD reg et ++ [cb] := by
  refine ⟨rfl, ?_, registryGetD_register reg et cb⟩
  simp only [handleEvent]
  cases hr : registryGet reg (msgGet ev "Event" "") with
  | none => simp [registryGetD, hr]
  | some cbs => simp [registryGetD, hr, runCallbacks_eq_map]

/-- C10: one processed event mutates at most one record: the part of the
table before and after the first record whose channel matches is preserved
exactly, so a later record sharing the same channel is never updated. -/
theorem c10_at_most_first_match_updated (ev : Msg) (now : Nat) (pre : Calls)
    (cid : String) (info : CallInfo) (post : Calls)
    (hpre : ∀ p ∈ pre, p.2.channel ∉ relevantChannels ev)
    (hm : info.channel ∈ relevantChannels ev) :
    ∃ info2, trackerUpdate ev now (pre ++ (cid, info) :: post) =
      pre ++ (cid, info2) :: post := by
  have hch : msgGet ev "Event" "" ≠ "Bridge" →
      (∀ p ∈ pre, p.2.channel ≠ msgGet ev "Channel" "") ∧
      info.channel = msgGet ev "Channel" "" := by
    intro hnb
    have hb : (msgGet ev "Event" "" == "Bridge") = false :=
      beq_eq_false_iff_ne.mpr hnb
    constructor
    · intro p hp
      have hmp := hpre p hp
      simp [relevantChannels, hb] at hmp
      exact hmp
    · have hmi := hm
      simp [relevantChannels, hb] at hmi
      exact hmi
  simp only [trackerUpdate]
  split
  next hN =>
    have hN2 : msgGet ev "Event" "" = "Newchannel" := by simpa using hN
    have hc := hch (by simp [hN2])
    exact ⟨_, newChannelUpdate_first _ _ _ _ _ _ hc.1 hc.2⟩
  next hN =>
    split
    next hH =>
      have hH2 : msgGet ev "Event" "" = "Hangup" := by simpa using hH
      have hc := hch (by simp [hH2])
      exact ⟨_, hangupUpdate_first _ _ _ _ _ _ _ hc.1 hc.2⟩
    next hH =>
      split
      next hD =>
        have hD2 : msgGet ev "Event" "" = "Dial" := by simpa using hD
        have hc := hch (by simp [hD2])
        exact ⟨_, dialUpdate_first _ _ _ _ _ _ _ hc.1 hc.2⟩
      next hD =>
        split
        next hB =>
          have hB2 : msgGet ev "Event" "" = "Bridge" := by simpa using hB
          have hp2 : ∀ p ∈ pre, p.2.channel ≠ msgGet ev "Channel1" "" ∧
              p.2.channel ≠ msgGet ev "Channel2" "" := by
            intro p hp
            have hmp := hpre p hp
            rw [relevantChannels, hB2] at hmp
            simpa using hmp
          have hm2 : info.channel = msgGet ev "Channel1" "" ∨
              info.channel = msgGet ev "Channel2" "" := by
            have hmi := hm
            rw [relevantChannels, hB2] at hmi
            simpa using hmi
          exact ⟨_, bridgeUpdate_first _ _ _ _ _ _ _ hp2 hm2⟩
        next hB => exact ⟨info, rfl⟩

/-- Witness for C10: two concrete records share channel SIP/1000; a
Newchannel event for that channel rewrites only the first of them. -/
theorem c10_witness :
    ∃ info2,
      trackerUpdate
        [("Event", "Newchannel"), ("Channel", "SIP/1000"), ("Uniqueid", "55")]
        30 ([] ++ ("a", sampleCall) :: [("b", sampleCall)]) =
      [] ++ ("a", info2) :: [("b", sampleCall)] :=
  c10_at_most_first_match_updated _ 30 [] "a" sampleCall [("b", sampleCall)]
    (by decide) (by decide)

/-! ## Channel preservation by the tracker. -/

lemma newChannelUpdate_channels (ch uid : String) (calls : Calls) :
    (newChannelUpdate ch uid calls).map (fun p => (p.1, p.2.channel)) =
      calls.map (fun p => (p.1, p.2.channel)) := by
  induction calls with
  | nil => rfl
  | cons p rest ih =>
    obtain ⟨cid, info⟩ := p
    by_cases hc : (info.channel == ch) = true
    · simp [newChannelUpdate, hc]
    · simp only [Bool.not_eq_true] at hc
      simp [newChannelUpdate, hc, ih]

lemma hangupUpdate_channels (ch cause : String) (now : Nat) (calls : Calls) :
    (hangupUpdate ch cause now calls).map (fun p => (p.1, p.2.channel)) =
      calls.map (fun p => (p.1, p.2.channel)) := by
  induction calls with
  | nil => rfl
  | cons p rest ih =>
    obtain ⟨cid, info⟩ := p
    by_cases hc : (info.channel == ch) = true
    · simp [hangupUpdate, hc]
    · simp only [Bool.not_eq_true] at hc
      simp [hangupUpdate, hc, ih]

lemma dialApply_channel (sub : String) (now : Nat) (info : CallInfo) :
    (dialApply sub now info).channel = info.channel := by
  simp only [dialApply]
  split
  · rfl
  · split <;> rfl

lemma dialUpdate_channels (ch sub : String) (now : Nat) (calls : Calls) :
    (dialUpdate ch sub now calls).map (fun p => (p.1, p.2.channel)) =
      calls.map (fun p => (p.1, p.2.channel)) := by
  induction calls with
  | nil => rfl
  | cons p rest ih =>
    obtain ⟨cid, info⟩ := p
    by_cases hc : (info.channel == ch) = true
    · simp [dialUpdate, hc, dialApply_channel]
    · simp only [Bool.not_eq_true] at hc
      simp [dialUpdate, hc, ih]

lemma bridgeUpdate_channels (ch1 ch2 : String) (now : Nat) (calls : Calls) :
    (bridgeUpdate ch1 ch2 now calls).map (fun p => (p.1, p.2.channel)) =
      calls.map (fun p => (p.1, p.2.channel)) := by
  induction calls with
  | nil => rfl
  | cons p rest ih =>
    obtain ⟨cid, info⟩ := p
    by_cases hc : (info.channel == ch1 || info.channel == ch2) = true
    · simp [bridgeUpdate, hc]
    · simp only [Bool.not_eq_true] at hc
      simp [bridgeUpdate, hc, ih]

lemma trackerUpdate_channels (ev : Msg) (now : Nat) (calls : Calls) :
    (trackerUpdate ev now calls).map (fun p => (p.1, p.2.channel)) =
      calls.map (fun p => (p.1, p.2.channel)) := by
  simp only [trackerUpdate]
  split
  · exact newChannelUpdate_channels _ _ _
  · split
    · exact hangupUpdate_channels _ _ _ _
    · split
      · exact dialUpdate_channels _ _ _ _
      · split
        · exact bridgeUpdate_channels _ _ _ _
        · rfl

/-! ## Claim C2. -/

/-- C2 counterexample: a record whose status is already ended (terminal,
per the claim) is still rewritten by a later Dial Begin event for its
channel: its status becomes dialing again. -/
theorem c2_counterexample :
    endedCall.status = "ended" ∧
    trackerUpdate
      [("Event", "Dial"), ("Channel", "SIP/1000"), ("SubEvent", "Begin")]
      30 [("call_10_1", endedCall)] =
      [("call_10_1", { endedCall with status := "dialing" })] ∧
    ("dialing" : String) ≠ "ended" := by decide

/-- C2 amended: ended is not terminal.  A record whose status is ended is
still updated by every later matching event: Newchannel sets it back to
ringing, Dial Begin to dialing, Dial Answer to answered, and Bridge to
connected. -/
theorem c2_terminal_status_not_enforced (uid ch2 : String) (now : Nat)
    (pre : Calls) (cid : String) (info : CallInfo) (post : Calls)
    (hpre : ∀ p ∈ pre, p.2.channel ≠ info.channel)
    (hpre2 : ∀ p ∈ pre, p.2.channel ≠ ch2)
    (hterm : info.status = "ended") :
    newChannelUpdate info.channel uid (pre ++ (cid, info) :: post) =
      pre ++ (cid, { info with unique_id := some uid,
                               status := "ringing" }) :: post ∧
    dialUpdate info.channel "Begin" now (pre ++ (cid, info) :: post) =
      pre ++ (cid, { info with status := "dialing" }) :: post ∧
    dialUpdate info.channel "Answer" now (pre ++ (cid, info) :: post) =
      pre ++ (cid, { info with status := "answered",
                               answer_time := some now }) :: post ∧
    bridgeUpdate info.channel ch2 now (pre ++ (cid, info) :: post) =
      pre ++ (cid, { info with status := "connected",
                               bridge_time := some now }) :: post := by
  refine ⟨newChannelUpdate_first _ _ _ _ _ _ hpre rfl, ?_, ?_, ?_⟩
  · have h := dialUpdate_first info.channel "Begin" now pre cid info post hpre rfl
    simpa [dialApply] using h
  · have h := dialUpdate_first info.channel "Answer" now pre cid info post hpre rfl
    simpa [dialApply] using h
  · exact bridgeUpdate_first _ _ _ _ _ _ _
      (fun p hp => ⟨hpre p hp, hpre2 p hp⟩) (Or.inl rfl)

/-- Witness for C2 at the concrete ended record. -/
theorem c2_witness :
    newChannelUpdate endedCall.channel "55"
        ([] ++ ("call_10_1", endedCall) :: []) =
      [] ++ ("call_10_1", { endedCall with unique_id := some "55",
                                           status := "ringing" }) :: [] ∧
    dialUpdate endedCall.channel "Begin" 40
        ([] ++ ("call_10_1", endedCall) :: []) =
      [] ++ ("call_10_1", { endedCall with status := "dialing" }) :: [] ∧
    dialUpdate endedCall.channel "Answer" 40
        ([] ++ ("call_10_1", endedCall) :: []) =
      [] ++ ("call_10_1", { endedCall with status := "answered",
                                           answer_time := some 40 }) :: [] ∧
    bridgeUpdate endedCall.channel "SIP/2000" 40
        ([] ++ ("call_10_1", endedCall) :: []) =
      [] ++ ("call_10_1", { endedCall with status := "connected",
                                           bridge_time := some 40 }) :: [] :=
  c2_terminal_status_not_enforced "55" "SIP/2000" 40 [] "call_10_1" endedCall []
    (by decide) (by decide) (by decide)

/-! ## Claim C6. -/

/-- C6 counterexample: after a first Newchannel event assigned unique_id
111, a second Newchannel event for the same channel overwrites it with 222,
so unique_id is not assigned at most once. -/
theorem c6_counterexample :
    trackerUpdate
        [("Event", "Newchannel"), ("Channel", "SIP/1000"), ("Uniqueid", "222")]
        12
        (trackerUpdate
          [("Event", "Newchannel"), ("Channel", "SIP/1000"), ("Uniqueid", "111")]
          11 [("call_10_1", sampleCall)]) =
      [("call_10_1", { sampleCall with unique_id := some "222",
                                       status := "ringing" })] ∧
    (some "222" : Option String) ≠ some "111" := by decide

/-- C6 amended: the channel of every record survives every event unchanged,
but unique_id is written by every matching Newchannel event (the latest
event wins), not only by the first one. -/
theorem c6_channel_stable_uid_overwritten (ev : Msg) (now : Nat)
    (calls : Calls) (uid : String) (pre : Calls) (cid : String)
    (info : CallInfo) (post : Calls)
    (hpre : ∀ p ∈ pre, p.2.channel ≠ info.channel) :
    (trackerUpdate ev now calls).map (fun p => (p.1, p.2.channel)) =
      calls.map (fun p => (p.1, p.2.channel)) ∧
    newChannelUpdate info.channel uid (pre ++ (cid, info) :: post) =
      pre ++ (cid, { info with unique_id := some uid,
                               status := "ringing" }) :: post :=
  ⟨trackerUpdate_channels ev now calls,
   newChannelUpdate_first _ _ _ _ _ _ hpre rfl⟩

/-- Witness for C6: the record already holds unique_id 111 and the next
matching Newchannel event overwrites it with 222. -/
theorem c6_witness :
    (trackerUpdate [("Event", "Hangup"), ("Channel", "SIP/1000"), ("Cause", "16")]
        20 [("call_10_1", sampleCall)]).map (fun p => (p.1, p.2.channel)) =
      [("call_10_1", sampleCall)].map (fun p => (p.1, p.2.channel)) ∧
    newChannelUpdate
        ({ sampleCall with unique_id := some "111", status := "ringing" }).channel
        "222"
        ([] ++ ("call_10_1",
          { sampleCall with unique_id := some "111", status := "ringing" }) :: []) =
      [] ++ ("call_10_1",
        { { sampleCall with unique_id := some "111", status := "ringing" } with
            unique_id := some "222", status := "ringing" }) :: [] :=
  c6_channel_stable_uid_overwritten
    [("Event", "Hangup"), ("Channel", "SIP/1000"), ("Cause", "16")] 20
    [("call_10_1", sampleCall)] "222" [] "call_10_1"
    { sampleCall with unique_id := some "111", status := "ringing" } []
    (by decide)

/-! ## Lemmas about _send_action and the call-table dict. -/

lemma sendAction_match (st : AMIState) (act : Msg) (r : Msg) (rest : List Msg)
    (hconn : st.connected = true) (hq : st.response_queue = r :: rest)
    (hid : msgGet r "ActionID" "" = toString (st.action_id + 1)) :
    sendAction st act =
      ({ st with action_id := st.action_id + 1, response_queue := rest },
       some r,
       [⟨setField act "ActionID" (toString (st.action_id + 1)), true,
         st.authenticated⟩]) := by
  simp [sendAction, hconn, hq, hid]

lemma callsGet_set_self (calls : Calls) (cid : String) (info : CallInfo) :
    callsGet (callsSet calls cid info) cid = some info := by
  induction calls with
  | nil => simp [callsSet, callsGet]
  | cons p rest ih =>
    obtain ⟨c1, i1⟩ := p
    by_cases hc : (c1 == cid) = true
    · simp [callsSet, hc, callsGet, List.find?]
    · simp only [Bool.not_eq_true] at hc
      simp only [callsSet, hc, Bool.false_eq_true, if_false]
      simp only [callsGet, List.find?, hc] at ih ⊢
      exact ih

lemma callsGet_set_other (calls : Calls) (cid cid2 : String) (info : CallInfo)
    (h : cid2 ≠ cid) :
    callsGet (callsSet calls cid info) cid2 = callsGet calls cid2 := by
  induction calls with
  | nil =>
    have h2 : (cid == cid2) = false := beq_eq_false_iff_ne.mpr (Ne.symm h)
    simp [callsSet, callsGet, List.find?, h2]
  | cons p rest ih =>
    obtain ⟨c1, i1⟩ := p
    by_cases hc : (c1 == cid) = true
    · have hc2 : c1 = cid := by simpa using hc
      have h2 : (c1 == cid2) = false := by
        rw [hc2]
        exact beq_eq_false_iff_ne.mpr (Ne.symm h)
      simp [callsSet, hc, callsGet, List.find?, h2]
    · simp only [Bool.not_eq_true] at hc
      simp only [callsSet, hc, Bool.false_eq_true, if_false]
      by_cases hc3 : (c1 == cid2) = true
      · simp [callsGet, List.find?, hc3]
      · simp only [Bool.not_eq_true] at hc3
        simp only [callsGet, List.find?, hc3] at ih ⊢
        exact ih

/-! ## Claim C5. -/

/-- C5 counterexample: on a Success response, hangup_call itself rewrites
the record: concretely, the tracked call's status changes from dialing to
hung_up and an end_time appears, before any Hangup event is processed. -/
theorem c5_counterexample :
    (hangupCall hangupState "call_10_1" 50).1.active_calls =
      [("call_10_1", { sampleCall with status := "hung_up",
                                       end_time := some 50 })] ∧
    sampleCall.status = "dialing" ∧
    ("hung_up" : String) ≠ "dialing" := by decide

/-- C5 amended: hangup_call sends the Hangup action and, on a Success
response, itself sets the record's status to hung_up and records end_time
(other records are untouched); the claim that only the resulting Hangup
event changes the record is false. -/
theorem c5_hangup_mutates_on_success (st : AMIState) (cid : String)
    (now : Nat) (info : CallInfo) (r : Msg) (rest : List Msg)
    (hfind : callsGet st.active_calls cid = some info)
    (hch : info.channel ≠ "")
    (hconn : st.connected = true)
    (hq : st.response_queue = r :: rest)
    (hid : msgGet r "ActionID" "" = toString (st.action_id + 1))
    (hsucc : msgGet r "Response" "" = "Success") :
    (hangupCall st cid now).2.1 = true ∧
    callsGet (hangupCall st cid now).1.active_calls cid =
      some { info with status := "hung_up", end_time := some now } ∧
    ∀ cid2, cid2 ≠ cid →
      callsGet (hangupCall st cid now).1.active_calls cid2 =
        callsGet st.active_calls cid2 := by
  have hch2 : (info.channel == "") = false := beq_eq_false_iff_ne.mpr hch
  have hsend := sendAction_match st
    [("Action", "Hangup"), ("Channel", info.channel),
     ("ActionID", toString st.action_id)] r rest hconn hq hid
  simp only [hangupCall, hfind, hch2, Bool.false_eq_true, if_false, hsend,
    hsucc]
  simp [callsGet_set_self, callsGet_set_other, hfind]
  intro cid2 hne
  exact callsGet_set_other _ _ _ _ hne

/-- Witness for C5 at the concrete client state. -/
theorem c5_witness :
    (hangupCall hangupState "call_10_1" 50).2.1 = true ∧
    callsGet (hangupCall hangupState "call_10_1" 50).1.active_calls
        "call_10_1" =
      some { sampleCall with status := "hung_up", end_time := some 50 } ∧
    callsGet (hangupCall hangupState "call_10_1" 50).1.active_calls "other" =
      callsGet hangupState.active_calls "other" := by
  have h := c5_hangup_mutates_on_success hangupState "call_10_1" 50 sampleCall
    [("Response", "Success"), ("ActionID", "2")] [] (by decide) (by decide)
    (by decide) rfl (by decide) (by decide)
  exact ⟨h.1, h.2.1, h.2.2 "other" (by decide)⟩

/-! ## Claim C3. -/

/-- C3 counterexample: a successful originate_call creates the record with
status dialing, and the Dial Begin transition (which, per the design, is
what enters the Dialing state) leaves that record unchanged — so the
initial status already is Dialing, not a distinct Originating state. -/
theorem c3_counterexample :
    (originateCall authState "1000" "SIP" "outbound" "s" 1 none
        10).1.active_calls = [("call_10_1", sampleCall)] ∧
    sampleCall.status = "dialing" ∧
    dialApply "Begin" 11 sampleCall = sampleCall := by decide

/-- C3 amended: on a Success response, originate_call creates a record
whose initial status is dialing (the Dialing state; the code has no
distinct originating status) and immediately returns success together with
the generated call id. -/
theorem c3_originate_success (st : AMIState) (phone chtech ctx ext : String)
    (priority : Nat) (callerID : Option String) (now : Nat) (r : Msg)
    (rest : List Msg)
    (hauth : st.authenticated = true) (hconn : st.connected = true)
    (hq : st.response_queue = r :: rest)
    (hid : msgGet r "ActionID" "" = toString (st.action_id + 1))
    (hsucc : msgGet r "Response" "" = "Success") :
    (originateCall st phone chtech ctx ext priority callerID now).2.1 =
      { success := true,
        call_id := some ("call_" ++ toString now ++ "_" ++
          toString st.action_id),
        message := some "Call originated successfully" } ∧
    (originateCall st phone chtech ctx ext priority callerID now).1.active_calls =
      callsSet st.active_calls
        ("call_" ++ toString now ++ "_" ++ toString st.action_id)
        { phone_number := phone, channel := chtech ++ "/" ++ phone,
          start_time := now, status := "dialing", unique_id := none } := by
  cases callerID with
  | none =>
    have hsend := sendAction_match st
      [("Action", "Originate"), ("Channel", chtech ++ "/" ++ phone),
       ("Context", ctx), ("Exten", ext), ("Priority", toString priority),
       ("ActionID", toString st.action_id),
       ("Variable", "CALL_ID=" ++
         ("call_" ++ toString now ++ "_" ++ toString st.action_id)),
       ("Async", "true")] r rest hconn hq hid
    simp [originateCall, hauth, hsend, hsucc]
  | some cid =>
    have hsend := sendAction_match st
      [("Action", "Originate"), ("Channel", chtech ++ "/" ++ phone),
       ("Context", ctx), ("Exten", ext), ("Priority", toString priority),
       ("ActionID", toString st.action_id),
       ("Variable", "CALL_ID=" ++
         ("call_" ++ toString now ++ "_" ++ toString st.action_id)),
       ("Async", "true"), ("CallerID", cid)] r rest hconn hq hid
    simp [originateCall, hauth, hsend, hsucc]

/-- Witness for C3 at the concrete client state. -/
theorem c3_witness :
    (originateCall authState "1000" "SIP" "outbound" "s" 1 none 10).2.1 =
      { success := true, call_id := some ("call_" ++ toString 10 ++ "_" ++
          toString authState.action_id),
        message := some "Call originated successfully" } ∧
    (originateCall authState "1000" "SIP" "outbound" "s" 1 none
        10).1.active_calls =
      callsSet authState.active_calls
        ("call_" ++ toString 10 ++ "_" ++ toString authState.action_id)
        { phone_number := "1000", channel := "SIP" ++ "/" ++ "1000",
          start_time := 10, status := "dialing", unique_id := none } :=
  c3_originate_success authState "1000" "SIP" "outbound" "s" 1 none 10
    [("Response", "Success"), ("ActionID", "2")] [] (by decide) (by decide)
    rfl (by decide) (by decide)

/-! ## What _send_action writes, and when. -/

lemma sendAction_emits (st : AMIState) (act : Msg) :
    (sendAction st act).2.2 = [] ∨
    (st.connected = true ∧
      (sendAction st act).2.2 =
        [⟨setField act "ActionID" (toString (st.action_id + 1)), true,
          st.authenticated⟩]) := by
  simp only [sendAction]
  split
  next hc =>
    split
    · right; exact ⟨hc, by simp [hc]⟩
    · split
      · right; exact ⟨hc, by simp [hc]⟩
      · right; exact ⟨hc, by simp [hc]⟩
  next hc => left; rfl

lemma sendAction_conn (st : AMIState) (act : Msg) :
    ∀ e ∈ (sendAction st act).2.2, e.connAtSend = true := by
  intro e he
  rcases sendAction_emits st act with h | ⟨_, h⟩
  · rw [h] at he
    simp at he
  · rw [h] at he
    rw [List.mem_singleton] at he
    subst he
    rfl

lemma sendAction_sound (st : AMIState) (act : Msg) (r : Msg)
    (h : (sendAction st act).2.1 = some r) :
    msgGet r "ActionID" "" = toString (st.action_id + 1) := by
  simp only [sendAction] at h
  split at h
  · split at h
    · simp at h
    · split at h
      next hm =>
        simp only [Option.some.injEq] at h
        subst h
        simpa using hm
      next hm => simp at h
  · simp at h

lemma login_conn (st : AMIState) :
    ∀ e ∈ (login st).2.2, e.connAtSend = true := by
  intro e he
  simp only [login] at he
  split at he
  · rcases h : sendAction st
        [("Action", "Login"), ("Username", st.username),
         ("Secret", st.password), ("ActionID", toString st.action_id)] with
      ⟨s1, resp, em⟩
    rw [h] at he
    have hem : e ∈ em := by
      cases resp with
      | some r =>
        by_cases hs : (msgGet r "Response" "" == "Success") = true
        · simpa [hs] using he
        · simp only [Bool.not_eq_true] at hs
          simpa [hs] using he
      | none => simpa using he
    exact sendAction_conn st _ e (by rw [h]; exact hem)
  · simp at he

lemma originate_conn (st : AMIState) (phone chtech ctx ext : String)
    (priority : Nat) (callerID : Option String) (now : Nat) :
    ∀ e ∈ (originateCall st phone chtech ctx ext priority callerID now).2.2,
      e.connAtSend = true := by
  intro e he
  cases callerID with
  | none =>
    simp only [originateCall] at he
    split at he
    · rcases h : sendAction st
          [("Action", "Originate"), ("Channel", chtech ++ "/" ++ phone),
           ("Context", ctx), ("Exten", ext), ("Priority", toString priority),
           ("ActionID", toString st.action_id),
           ("Variable", "CALL_ID=" ++
             ("call_" ++ toString now ++ "_" ++ toString st.action_id)),
           ("Async", "true")] with ⟨s1, resp, em⟩
      rw [h] at he
      have hem : e ∈ em := by
        cases resp with
        | some r =>
          by_cases hs : (msgGet r "Response" "" == "Success") = true
          · simpa [hs] using he
          · simp only [Bool.not_eq_true] at hs
            simpa [hs] using he
        | none => simpa using he
      exact sendAction_conn st _ e (by rw [h]; exact hem)
    · simp at he
  | some cid =>
    simp only [originateCall] at he
    split at he
    · rcases h : sendAction st
          ([("Action", "Originate"), ("Channel", chtech ++ "/" ++ phone),
            ("Context", ctx), ("Exten", ext), ("Priority", toString priority),
            ("ActionID", toString st.action_id),
            ("Variable", "CALL_ID=" ++
              ("call_" ++ toString now ++ "_" ++ toString st.action_id)),
            ("Async", "true")] ++ [("CallerID", cid)]) with ⟨s1, resp, em⟩
      rw [h] at he
      have hem : e ∈ em := by
        cases resp with
        | some r =>
          by_cases hs : (msgGet r "Response" "" == "Success") = true
          · simpa [hs] using he
          · simp only [Bool.not_eq_true] at hs
            simpa [hs] using he
        | none => simpa using he
      exact sendAction_conn st _ e (by rw [h]; exact hem)
    · simp at he

lemma hangup_conn (st : AMIState) (cid : String) (now : Nat) :
    ∀ e ∈ (hangupCall st cid now).2.2, e.connAtSend = true := by
  intro e he
  simp only [hangupCall] at he
  cases hcg : callsGet st.active_calls cid with
  | none => rw [hcg] at he; simp at he
  | some info =>
    rw [hcg] at he
    by_cases hch : (info.channel == "") = true
    · simp [hch] at he
    · simp only [Bool.not_eq_true] at hch
      simp only [hch, Bool.false_eq_true, if_false] at he
      rcases h : sendAction st
          [("Action", "Hangup"), ("Channel", info.channel),
           ("ActionID", toString st.action_id)] with ⟨s1, resp, em⟩
      rw [h] at he
      have hem : e ∈ em := by
        cases resp with
        | some r =>
          by_cases hs : (msgGet r "Response" "" == "Success") = true
          · simpa [hs] using he
          · simp only [Bool.not_eq_true] at hs
            simpa [hs] using he
        | none => simpa using he
      exact sendAction_conn st _ e (by rw [h]; exact hem)

lemma listCalls_conn (st : AMIState) :
    ∀ e ∈ (listActiveCalls st).2.2, e.connAtSend = true := by
  intro e he
  simp only [listActiveCalls] at he
  rcases h : sendAction st
      [("Action", "Status"), ("ActionID", toString st.action_id)] with
    ⟨s1, resp, em⟩
  rw [h] at he
  have hem : e ∈ em := by simpa using he
  exact sendAction_conn st _ e (by rw [h]; exact hem)

lemma disconnect_conn (st : AMIState) :
    ∀ e ∈ (disconnectClient st).2, e.connAtSend = true := by
  intro e he
  simp only [disconnectClient] at he
  split at he
  · rcases h : sendAction st
        [("Action", "Logoff"), ("ActionID", toString st.action_id)] with
      ⟨s1, resp, em⟩
    rw [h] at he
    have hem : e ∈ em := by simpa using he
    exact sendAction_conn st _ e (by rw [h]; exact hem)
  · simp at he

lemma step_conn (st : AMIState) (op : Op) :
    ∀ e ∈ (step st op).2, e.connAtSend = true := by
  cases op with
  | connect ok => intro e he; simp [step] at he
  | login =>
    intro e he
    simp only [step] at he
    rcases h : login st with ⟨s, b, em⟩
    rw [h] at he
    simp at he
    exact login_conn st e (by rw [h]; exact he)
  | originate p c cx ex pr cid now =>
    intro e he
    simp only [step] at he
    rcases h : originateCall st p c cx ex pr cid now with ⟨s, b, em⟩
    rw [h] at he
    simp at he
    exact originate_conn st p c cx ex pr cid now e (by rw [h]; exact he)
  | hangup cid now =>
    intro e he
    simp only [step] at he
    rcases h : hangupCall st cid now with ⟨s, b, em⟩
    rw [h] at he
    simp at he
    exact hangup_conn st cid now e (by rw [h]; exact he)
  | listCalls =>
    intro e he
    simp only [step] at he
    rcases h : listActiveCalls st with ⟨s, b, em⟩
    rw [h] at he
    simp at he
    exact listCalls_conn st e (by rw [h]; exact he)
  | disconnect =>
    intro e he
    exact disconnect_conn st e he
  | enqueue m => intro e he; simp [step] at he
  | deliver ev now => intro e he; simp [step] at he

/-! ## Claim C4. -/

/-- C4 counterexample: along the reachable trace connect-then-list, the
client writes the Status action to the wire (an action other than Logoff)
while connected but not authenticated. -/
theorem c4_counterexample :
    (run (initState "admin" "secret") [Op.connect true, Op.listCalls]).2 =
      [⟨[("Action", "Status"), ("ActionID", "2")], true, false⟩] ∧
    msgGet [("Action", "Status"), ("ActionID", "2")] "Action" "" ≠ "Logoff" := by
  decide

/-- C4 amended: the only guard _send_action enforces is connectedness:
along every trace, every action written to the wire is written while the
client is connected — but not necessarily authenticated (login and
list_active_calls send while merely connected; only originate_call
requires authentication). -/
theorem c4_actions_written_only_while_connected (st : AMIState)
    (ops : List Op) :
    ∀ e ∈ (run st ops).2, e.connAtSend = true := by
  induction ops generalizing st with
  | nil => intro e he; simp [run] at he
  | cons op rest ih =>
    intro e he
    simp only [run] at he
    rcases h1 : step st op with ⟨s1, e1⟩
    rcases h2 : run s1 rest with ⟨s2, e2⟩
    rw [h1, h2] at he
    simp at he
    rcases he with he | he
    · exact step_conn st op e (by rw [h1]; exact he)
    · exact ih s1 e (by rw [h2]; exact he)

/-- Witness for C4 on the concrete connect-then-list trace. -/
theorem c4_witness :
    (⟨[("Action", "Status"), ("ActionID", "2")], true, false⟩ : Emit) ∈
      (run (initState "admin" "secret") [Op.connect true, Op.listCalls]).2 ∧
    Emit.connAtSend
      ⟨[("Action", "Status"), ("ActionID", "2")], true, false⟩ = true :=
  ⟨by decide,
   c4_actions_written_only_while_connected (initState "admin" "secret")
     [Op.connect true, Op.listCalls] _ (by decide)⟩

/-! ## Claim C1. -/

/-- C1: evidence for the code bug — with another caller's response
(ActionID 99) at the front of the single shared response queue,
_send_action (which stamps ActionID 2 into its own action) pops that
response, returns none to its caller, and the foreign response is consumed
from the queue: the caller does not receive the response matching its
ActionID, and the other caller's response is lost. -/
theorem c1_shared_queue_drops_other_callers_response :
    (sendAction c1State [("Action", "Ping"), ("ActionID", "1")]).2.1 = none ∧
    (sendAction c1State
        [("Action", "Ping"), ("ActionID", "1")]).1.response_queue = [] ∧
    msgGet [("Response", "Success"), ("ActionID", "99")] "ActionID" "" ≠
      toString (c1State.action_id + 1) := by
  decide

/-! ## Codec lemmas: scanning for a separator. -/

lemma isPre_self_append (sep s : Str) : isPre sep (sep ++ s) = true := by
  induction sep with
  | nil => rfl
  | cons c cs ih => simp [isPre, ih]

lemma isPre_head_ne (h c : Char) (t s : Str) (hc : c ≠ h) :
    isPre (h :: t) (c :: s) = false := by
  have : (h == c) = false := beq_eq_false_iff_ne.mpr (Ne.symm hc)
  simp [isPre, this]

lemma splitFirstAux_skip (h : Char) (t a : Str) (ha : ∀ c ∈ a, c ≠ h)
    (s acc : Str) :
    splitFirstAux (h :: t) (a ++ s) acc =
      splitFirstAux (h :: t) s (a.reverse ++ acc) := by
  induction a generalizing acc with
  | nil => simp
  | cons c a ih =>
    rw [List.forall_mem_cons] at ha
    have hpre : isPre (h :: t) (c :: (a ++ s)) = false :=
      isPre_head_ne h c t (a ++ s) ha.1
    simp only [List.cons_append, splitFirstAux, List.append_eq, hpre,
      Bool.false_eq_true, if_false]
    rw [ih ha.2 (c :: acc)]
    congr 1
    simp

lemma splitFirstAux_found (sep : Str) (hne : sep ≠ []) (s acc : Str) :
    splitFirstAux sep (sep ++ s) acc = some (acc.reverse, s) := by
  cases sep with
  | nil => exact absurd rfl hne
  | cons h t =>
    have hpre : isPre (h :: t) ((h :: t) ++ s) = true := isPre_self_append _ _
    simp only [List.cons_append, splitFirstAux, List.append_eq] at hpre ⊢
    rw [hpre]
    simp only [if_true]
    congr 1
    rw [List.length_cons, List.drop_succ_cons]
    exact congrArg _ (List.drop_left t s)

lemma splitFirstAux_colon (k : Str) (hk : containsSub [':', ' '] k = false)
    (v acc : Str) :
    splitFirstAux [':', ' '] (k ++ ':' :: ' ' :: v) acc =
      some (acc.reverse ++ k, v) := by
  induction k generalizing acc with
  | nil => simp [splitFirstAux, isPre]
  | cons c k ih =>
    have hk2 : containsSub [':', ' '] k = false := by
      have h2 := hk
      simp only [containsSub, Bool.or_eq_false_iff] at h2
      exact h2.2
    have hpre : isPre [':', ' '] (c :: (k ++ ':' :: ' ' :: v)) = false := by
      by_cases hc : c = ':'
      · subst hc
        cases k with
        | nil => simp [isPre]
        | cons d k2 =>
          have hd : d ≠ ' ' := by
            intro hd
            subst hd
            simp [containsSub, isPre] at hk
          have : (' ' == d) = false := beq_eq_false_iff_ne.mpr (Ne.symm hd)
          simp [isPre, this]
      · have : (':' == c) = false := beq_eq_false_iff_ne.mpr (Ne.symm hc)
        simp [isPre, this]
    simp only [List.cons_append, splitFirstAux, List.append_eq, hpre,
      Bool.false_eq_true, if_false]
    rw [ih hk2 (c :: acc)]
    congr 1
    simp

lemma splitFirst_lineOf (k v : Str) (hk : containsSub [':', ' '] k = false) :
    splitFirst [':', ' '] (lineOf (k, v)) = some (k, v) := by
  unfold splitFirst lineOf
  rw [splitFirstAux_colon k hk v []]
  simp

/-! ## Codec lemmas: block framing. -/

lemma encodeAction_cons (p : Str × Str) (rest : List (Str × Str)) :
    encodeAction (p :: rest) = lineOf p ++ crlf ++ encodeAction rest := by
  simp [encodeAction, List.append_assoc]

lemma joinCRLF_cons_cons (l l2 : Str) (ls : List Str) :
    joinCRLF (l :: l2 :: ls) = l ++ crlf ++ joinCRLF (l2 :: ls) := rfl

lemma encodeAction_eq_join (fs : List (Str × Str)) (hne : fs ≠ []) :
    encodeAction fs = joinCRLF (fs.map lineOf) ++ (crlf ++ crlf) := by
  induction fs with
  | nil => exact absurd rfl hne
  | cons p fs ih =>
    cases fs with
    | nil => simp [encodeAction, joinCRLF, List.append_assoc]
    | cons q fs2 =>
      rw [encodeAction_cons, ih (List.cons_ne_nil q fs2)]
      simp only [List.map_cons]
      rw [joinCRLF_cons_cons]
      simp [List.append_assoc]

lemma joinCRLF_head_ext (l : Str) (ls : List Str) :
    ∃ t, joinCRLF (l :: ls) = l ++ t := by
  cases ls with
  | nil => exact ⟨[], by simp [joinCRLF]⟩
  | cons l2 ls2 => exact ⟨crlf ++ joinCRLF (l2 :: ls2), by
      rw [joinCRLF_cons_cons, List.append_assoc]⟩

lemma joinCRLF_map_last (fs : List (Str × Str)) (p : Str × Str) :
    ∃ a, joinCRLF (List.map lineOf (p :: fs)) =
      a ++ lineOf (fs.getLastD p) := by
  induction fs generalizing p with
  | nil => exact ⟨[], by simp [joinCRLF]⟩
  | cons q fs ih =>
    obtain ⟨a, ha⟩ := ih q
    refine ⟨lineOf p ++ crlf ++ a, ?_⟩
    rw [List.map_cons, List.map_cons, joinCRLF_cons_cons, ← List.map_cons,
      ha, List.getLastD_cons]
    simp [List.append_assoc]

lemma splitFirstAux_quad_join (lines : List Str)
    (hli : ∀ l ∈ lines, l ≠ [] ∧ ∀ c ∈ l, c ≠ CR) :
    ∀ acc, splitFirstAux (crlf ++ crlf) (joinCRLF lines ++ (crlf ++ crlf)) acc =
      some (acc.reverse ++ joinCRLF lines, []) := by
  induction lines with
  | nil =>
    intro acc
    have h := splitFirstAux_found (crlf ++ crlf) (by decide) [] acc
    simpa [joinCRLF] using h
  | cons l ls ih =>
    intro acc
    rw [List.forall_mem_cons] at hli
    cases ls with
    | nil =>
      simp only [joinCRLF]
      rw [show (crlf ++ crlf : Str) = CR :: [LF, CR, LF] from rfl]
      rw [splitFirstAux_skip CR [LF, CR, LF] l hli.1.2 _ acc]
      have hfound : splitFirstAux (CR :: [LF, CR, LF]) (CR :: [LF, CR, LF])
          (l.reverse ++ acc) = some ((l.reverse ++ acc).reverse, []) := by
        simpa using splitFirstAux_found (CR :: [LF, CR, LF]) (by decide) []
          (l.reverse ++ acc)
      rw [hfound]
      simp
    | cons l2 ls2 =>
      rw [joinCRLF_cons_cons]
      obtain ⟨t, ht⟩ := joinCRLF_head_ext l2 ls2
      obtain ⟨c2, l2t, hl2⟩ : ∃ c2 l2t, l2 = c2 :: l2t := by
        cases hl2 : l2 with
        | nil => exact absurd hl2 (hli.2 l2 (List.mem_cons_self l2 ls2)).1
        | cons c2 l2t => exact ⟨c2, l2t, rfl⟩
      have hc2 : c2 ≠ CR := by
        refine (hli.2 l2 (List.mem_cons_self l2 ls2)).2 c2 ?_
        rw [hl2]
        exact List.mem_cons_self c2 l2t
      -- scan through the first line
      rw [show ((l ++ crlf ++ joinCRLF (l2 :: ls2)) ++ (crlf ++ crlf) : Str) =
          l ++ (crlf ++ (joinCRLF (l2 :: ls2) ++ (crlf ++ crlf))) by
        simp [List.append_assoc]]
      rw [show (crlf ++ crlf : Str) = CR :: [LF, CR, LF] from rfl]
      rw [splitFirstAux_skip CR [LF, CR, LF] l hli.1.2 _ acc]
      -- step over CR and LF of the separator
      have hnotpre : isPre (CR :: [LF, CR, LF])
          (CR :: LF :: (joinCRLF (l2 :: ls2) ++ (CR :: [LF, CR, LF]))) =
            false := by
        rw [ht, hl2]
        simp only [List.cons_append, List.append_assoc]
        have : (CR == c2) = false := beq_eq_false_iff_ne.mpr (Ne.symm hc2)
        simp [isPre, this]
      rw [show (crlf ++ (joinCRLF (l2 :: ls2) ++ (CR :: [LF, CR, LF])) : Str) =
          CR :: LF :: (joinCRLF (l2 :: ls2) ++ (CR :: [LF, CR, LF])) from rfl]
      rw [show splitFirstAux (CR :: [LF, CR, LF])
            (CR :: LF :: (joinCRLF (l2 :: ls2) ++ (CR :: [LF, CR, LF])))
            (l.reverse ++ acc) =
          splitFirstAux (CR :: [LF, CR, LF])
            (LF :: (joinCRLF (l2 :: ls2) ++ (CR :: [LF, CR, LF])))
            (CR :: (l.reverse ++ acc)) by
        simp only [splitFirstAux, hnotpre, Bool.false_eq_true, if_false]]
      have hnotpre2 : isPre (CR :: [LF, CR, LF])
          (LF :: (joinCRLF (l2 :: ls2) ++ (CR :: [LF, CR, LF]))) = false :=
        isPre_head_ne CR LF [LF, CR, LF] _ (by decide)
      rw [show splitFirstAux (CR :: [LF, CR, LF])
            (LF :: (joinCRLF (l2 :: ls2) ++ (CR :: [LF, CR, LF])))
            (CR :: (l.reverse ++ acc)) =
          splitFirstAux (CR :: [LF, CR, LF])
            (joinCRLF (l2 :: ls2) ++ (CR :: [LF, CR, LF]))
            (LF :: CR :: (l.reverse ++ acc)) by
        simp only [splitFirstAux, hnotpre2, Bool.false_eq_true, if_false]]
      rw [show (CR :: [LF, CR, LF] : Str) = crlf ++ crlf from rfl]
      rw [ih hli.2 (LF :: CR :: (l.reverse ++ acc))]
      simp [List.append_assoc, crlf]

lemma splitFirst_encode (fs : List (Str × Str)) (hne : fs ≠ [])
    (hli : ∀ l ∈ fs.map lineOf, l ≠ [] ∧ ∀ c ∈ l, c ≠ CR) :
    splitFirst (crlf ++ crlf) (encodeAction fs) =
      some (joinCRLF (fs.map lineOf), []) := by
  unfold splitFirst
  rw [encodeAction_eq_join fs hne]
  have h := splitFirstAux_quad_join (fs.map lineOf) hli []
  simpa using h

/-! ## Codec lemmas: strip and line splitting. -/

lemma dropWhile_id (p : Char → Bool) :
    ∀ s : Str, (∀ c t, s = c :: t → p c = false) → s.dropWhile p = s
  | [], _ => rfl
  | c :: t, h => by
    rw [List.dropWhile_cons, h c t rfl]
    simp

lemma pyStrip_id (s : Str)
    (hhead : ∀ c t, s = c :: t → pyIsSpace c = false)
    (hlast : ∀ c t, s.reverse = c :: t → pyIsSpace c = false) :
    pyStrip s = s := by
  unfold pyStrip
  rw [dropWhile_id pyIsSpace s hhead]
  rw [dropWhile_id pyIsSpace s.reverse hlast]
  exact List.reverse_reverse s

lemma splitLinesAux_noCR (l : Str) (h : ∀ c ∈ l, c ≠ CR) (acc : Str) :
    splitLinesAux l acc = [acc.reverse ++ l] := by
  induction l generalizing acc with
  | nil => simp [splitLinesAux]
  | cons c l ih =>
    rw [List.forall_mem_cons] at h
    cases l with
    | nil => simp [splitLinesAux]
    | cons c2 l2 =>
      have hcond : ¬(c = CR ∧ c2 = LF) := fun hx => h.1 hx.1
      simp only [splitLinesAux, if_neg hcond]
      rw [ih h.2 (c :: acc)]
      simp

lemma splitLinesAux_sep (l : Str) (h : ∀ c ∈ l, c ≠ CR) (s acc : Str) :
    splitLinesAux (l ++ CR :: LF :: s) acc =
      (acc.reverse ++ l) :: splitLinesAux s [] := by
  induction l generalizing acc with
  | nil => simp [splitLinesAux]
  | cons c l ih =>
    rw [List.forall_mem_cons] at h
    cases l with
    | nil =>
      have hcond : ¬(c = CR ∧ (CR : Char) = LF) := fun hx => h.1 hx.1
      simp only [List.cons_append, List.nil_append, splitLinesAux,
        if_neg hcond]
      simp [splitLinesAux]
    | cons c2 l2 =>
      have hcond : ¬(c = CR ∧ c2 = LF) := fun hx => h.1 hx.1
      simp only [List.cons_append, splitLinesAux, List.append_eq,
        if_neg hcond]
      rw [← List.cons_append c2 l2 (CR :: LF :: s), ih h.2 (c :: acc)]
      simp

lemma splitLines_joinCRLF (lines : List Str) (hne : lines ≠ [])
    (h : ∀ l ∈ lines, ∀ c ∈ l, c ≠ CR) :
    splitLines (joinCRLF lines) = lines := by
  induction lines with
  | nil => exact absurd rfl hne
  | cons l ls ih =>
    rw [List.forall_mem_cons] at h
    cases ls with
    | nil =>
      unfold splitLines
      simp only [joinCRLF]
      rw [splitLinesAux_noCR l h.1 []]
      simp
    | cons l2 ls2 =>
      unfold splitLines
      rw [joinCRLF_cons_cons]
      rw [show (l ++ crlf ++ joinCRLF (l2 :: ls2) : Str) =
        l ++ CR :: LF :: joinCRLF (l2 :: ls2) by
          simp [crlf, List.append_assoc]]
      rw [splitLinesAux_sep l h.1 _ []]
      rw [show splitLinesAux (joinCRLF (l2 :: ls2)) [] =
        splitLines (joinCRLF (l2 :: ls2)) from rfl]
      rw [ih (List.cons_ne_nil l2 ls2) h.2]
      simp

/-! ## Codec lemmas: parsing the lines back. -/

lemma dictSet_append (d : List (Str × Str)) (k v : Str)
    (hk : ∀ p ∈ d, p.1 ≠ k) : dictSet d k v = d ++ [(k, v)] := by
  induction d with
  | nil => rfl
  | cons p rest ih =>
    obtain ⟨k1, v1⟩ := p
    rw [List.forall_mem_cons] at hk
    have h1 : (k1 == k) = false := beq_eq_false_iff_ne.mpr hk.1
    simp only [dictSet, h1, Bool.false_eq_true, if_false]
    rw [ih hk.2]
    simp

lemma parseLines_append : ∀ (fs d : List (Str × Str)),
    (∀ p ∈ fs, containsSub [':', ' '] p.1 = false) →
    (((d ++ fs).map Prod.fst).Nodup) →
    parseLines (fs.map lineOf) d = d ++ fs
  | [], d, _, _ => by simp [parseLines]
  | (k, v) :: fs, d, hkey, hnd => by
    rw [List.forall_mem_cons] at hkey
    simp only [List.map_cons, parseLines, splitFirst_lineOf k v hkey.1]
    have hdk : ∀ q ∈ d, q.1 ≠ k := by
      intro q hq hqk
      rw [List.map_append] at hnd
      have hdisj := (List.nodup_append.mp hnd).2.2
      refine hdisj (List.mem_map_of_mem Prod.fst hq) ?_
      rw [hqk]
      simp
    rw [dictSet_append d k v hdk]
    have hnd2 : (((d ++ [(k, v)]) ++ fs).map Prod.fst).Nodup := by
      rw [List.append_assoc]
      simpa using hnd
    rw [parseLines_append fs (d ++ [(k, v)]) hkey.2 hnd2]
    simp

/-! ## Claim C7. -/

/-- C7 counterexample: the key "A: B" and the value "C" are printable ASCII
without CR or LF, yet decoding the encoded block yields the mapping with
key "A" and value "B: C", not the original one (the decoder splits each
line at its first colon-space). -/
theorem c7_counterexample :
    fieldsPrintable [(['A', ':', ' ', 'B'], ['C'])] = true ∧
    decodeWire (encodeAction [(['A', ':', ' ', 'B'], ['C'])]) =
      some [(['A'], ['B', ':', ' ', 'C'])] ∧
    [(['A'], ['B', ':', ' ', 'C'])] ≠ [(['A', ':', ' ', 'B'], ['C'])] := by
  decide

/-- C7 amended: the decode of an encode recovers the field mapping exactly
when, in addition to printable-ASCII keys and values, no key contains the
colon-space separator, keys are distinct, the first key does not start with
a stripped character, and the last value is non-empty and does not end
with one. -/
theorem c7_round_trip (k1 v1 : Str) (rest : List (Str × Str))
    (hpr : fieldsPrintable ((k1, v1) :: rest) = true)
    (hkey : ∀ p ∈ (k1, v1) :: rest, containsSub [':', ' '] p.1 = false)
    (hnd : (((k1, v1) :: rest).map Prod.fst).Nodup)
    (hhead : headNotSpace k1 = true)
    (hlast : lastValOk ((k1, v1) :: rest) = true) :
    decodeWire (encodeAction ((k1, v1) :: rest)) =
      some ((k1, v1) :: rest) := by
  have hprc : ∀ p ∈ (k1, v1) :: rest,
      (∀ c ∈ p.1, printableA c = true) ∧
      (∀ c ∈ p.2, printableA c = true) := by
    intro p hp
    rw [fieldsPrintable, List.all_eq_true] at hpr
    have h2 := hpr p hp
    rw [Bool.and_eq_true, List.all_eq_true, List.all_eq_true] at h2
    exact h2
  have hnotCR : ∀ c : Char, printableA c = true → c ≠ CR := by
    intro c hc heq
    rw [heq] at hc
    exact absurd hc (by decide)
  have hlines : ∀ l ∈ ((k1, v1) :: rest).map lineOf,
      l ≠ [] ∧ ∀ c ∈ l, c ≠ CR := by
    intro l hl
    rw [List.mem_map] at hl
    obtain ⟨p, hp, rfl⟩ := hl
    constructor
    · simp [lineOf]
    · intro c hc
      rw [lineOf, List.mem_append] at hc
      rcases hc with hc | hc
      · exact hnotCR c ((hprc p hp).1 c hc)
      · simp only [List.mem_cons] at hc
        rcases hc with rfl | rfl | hc
        · decide
        · decide
        · exact hnotCR c ((hprc p hp).2 c hc)
  have hfr := splitFirst_encode ((k1, v1) :: rest)
    (List.cons_ne_nil _ _) hlines
  have hhead2 : ∃ c0 t0,
      joinCRLF (((k1, v1) :: rest).map lineOf) = c0 :: t0 ∧
      pyIsSpace c0 = false := by
    obtain ⟨t, ht⟩ := joinCRLF_head_ext (lineOf (k1, v1)) (rest.map lineOf)
    rw [List.map_cons]
    simp only [lineOf, List.nil_append, List.cons_append] at ht
    cases k1 with
    | nil =>
      refine ⟨':', ' ' :: (v1 ++ t), ?_, by decide⟩
      simp only [lineOf, List.nil_append, List.cons_append]
      exact ht
    | cons ch k1t =>
      refine ⟨ch, k1t ++ ':' :: ' ' :: v1 ++ t, ?_, ?_⟩
      · simp only [lineOf, List.nil_append, List.cons_append]
        exact ht
      · simpa [headNotSpace] using hhead
  have hlast2 : ∃ c0 t0,
      (joinCRLF (((k1, v1) :: rest).map lineOf)).reverse = c0 :: t0 ∧
      pyIsSpace c0 = false := by
    obtain ⟨a, ha⟩ := joinCRLF_map_last rest (k1, v1)
    cases hq : (rest.getLastD (k1, v1)).2.reverse with
    | nil =>
      rw [lastValOk, hq] at hlast
      exact absurd hlast (by decide)
    | cons c0 t0 =>
      have hs0 : pyIsSpace c0 = false := by
        rw [lastValOk, hq] at hlast
        simpa using hlast
      refine ⟨c0, t0 ++ ([' ', ':'] ++
        (rest.getLastD (k1, v1)).1.reverse) ++ a.reverse, ?_, hs0⟩
      rw [ha, List.reverse_append, lineOf, List.reverse_append]
      simp only [List.reverse_cons]
      rw [hq]
      simp [List.append_assoc]
  have hstrip : pyStrip (joinCRLF (((k1, v1) :: rest).map lineOf)) =
      joinCRLF (((k1, v1) :: rest).map lineOf) := by
    apply pyStrip_id
    · intro c t heq
      obtain ⟨c0, t0, h0, hs0⟩ := hhead2
      rw [h0] at heq
      injection heq with h1 _
      rw [← h1]
      exact hs0
    · intro c t heq
      obtain ⟨c0, t0, h0, hs0⟩ := hlast2
      rw [h0] at heq
      injection heq with h1 _
      rw [← h1]
      exact hs0
  simp only [decodeWire, hfr]
  rw [processMessage, hstrip]
  rw [splitLines_joinCRLF (((k1, v1) :: rest).map lineOf)
    (by simp) (fun l hl => (hlines l hl).2)]
  rw [parseLines_append ((k1, v1) :: rest) [] hkey (by simpa using hnd)]
  simp

/-- Witness for C7 at a concrete two-field action. -/
theorem c7_witness :
    decodeWire (encodeAction [(['A'], ['1']), (['B'], ['2'])]) =
      some [(['A'], ['1']), (['B'], ['2'])] :=
  c7_round_trip ['A'] ['1'] [(['B'], ['2'])] (by decide) (by decide)
    (by decide) (by decide) (by decide)

end AMI
